import Mathlib

/-!
Verification of the `/ping` route handler of `app/app.py`.

The handler reads the form field `host` (defaulting to the empty string),
validates it with `re.match(r"^[a-zA-Z0-9.\-]+$", host)`, and on success runs
`subprocess.run(["ping", "-c", "1", host], capture_output=True, text=True)`,
returning `result.stdout` (HTTP 200).  On validation failure it returns
`("Invalid host", 400)` without spawning anything.  The embedding below models
the handler as a pure function of the form data and of the operating-system
behaviour at the one process invocation the handler can make.
-/

namespace PingApp

/-- Membership in the regex character class `[a-zA-Z0-9.\-]` of `app.py`
line 16: ASCII letters, ASCII digits, dot, and hyphen. -/
def allowedChar (c : Char) : Bool :=
  ('a' ≤ c && c ≤ 'z') || ('A' ≤ c && c ≤ 'Z') || ('0' ≤ c && c ≤ '9') ||
    c = '.' || c = '-'

/-- Greedy consumption step of the regex engine for `[a-zA-Z0-9.\-]+`:
drop the longest run of allowed characters from the front of the input. -/
def dropAllowed : List Char → List Char
  | [] => []
  | c :: cs => if allowedChar c then dropAllowed cs else c :: cs

/-- Embeds Python `re.match(r"^[a-zA-Z0-9.\-]+$", s)` as a Boolean.
`re.match` anchors at the start of the string; `+` requires at least one
allowed character and then consumes greedily (backtracking can never help for
this pattern because `'\n'` is not in the class); without `re.MULTILINE`,
`$` matches at the end of the string or just before one newline that ends the
string.  So the match succeeds exactly when, after the greedy run, the rest is
empty or a single trailing `'\n'`. -/
def reMatchList : List Char → Bool
  | [] => false
  | c :: rest =>
      allowedChar c && (dropAllowed rest = [] || dropAllowed rest = ['\n'])

/-- String-level wrapper of `reMatchList` on the string's character list. -/
def reMatchHost (s : String) : Bool :=
  reMatchList s.data

/-- Record of one `subprocess.run` invocation: the argument vector, whether a
shell interprets it (`shell=True`), and the `capture_output` / `text` keyword
arguments.  `app.py` passes a list (so `useShell = false`) with
`capture_output=True, text=True`. -/
structure SpawnCall where
  argv : List String
  useShell : Bool
  captureOutput : Bool
  textMode : Bool
deriving DecidableEq, Repr

/-- Outcome of a `subprocess.run` call: either the child ran to completion
with captured stdout, stderr and exit status, or the spawn itself failed
(missing binary, permission denied) and `subprocess.run` raised. -/
inductive SpawnOutcome where
  | completed (stdout stderr : String) (exitCode : Int)
  | spawnError (exn : String)
deriving DecidableEq, Repr

/-- HTTP response as Flask produces it from the handler's return value:
a bare string becomes status 200 with that body; the tuple
`("Invalid host", 400)` becomes status 400 with body `"Invalid host"`. -/
structure Response where
  status : Nat
  body : String
deriving DecidableEq, Repr

/-- Embeds `request.form.get(key, dflt)`: the form data is a partial map from
field names to values and `get` supplies the default when absent. -/
def formGet (form : String → Option String) (key dflt : String) : String :=
  (form key).getD dflt

/-- The exact `subprocess.run` call of `app.py` lines 20-24 for a given host:
argument vector `["ping", "-c", "1", host]`, no shell, output captured as
text. -/
def pingCall (host : String) : SpawnCall :=
  { argv := ["ping", "-c", "1", host]
    useShell := false
    captureOutput := true
    textMode := true }

/-- The `/ping` handler of `app.py` lines 12-26, as a function of the
operating system's behaviour `sys` (what each spawn returns) and the posted
form.  The result is the pair of

* `Except exn Response`: `Except.ok` is a response the handler returns,
  `Except.error` is a Python exception escaping the handler uncaught
  (the handler has no `try`/`except`, so a raising `subprocess.run`
  propagates); and
* the list of spawn calls the handler attempted, in order. -/
def ping (sys : SpawnCall → SpawnOutcome) (form : String → Option String) :
    Except String Response × List SpawnCall :=
  let host := formGet form "host" ""
  if reMatchHost host = false then
    (Except.ok { status := 400, body := "Invalid host" }, [])
  else
    match sys (pingCall host) with
    | SpawnOutcome.completed out _err _code =>
        (Except.ok { status := 200, body := out }, [pingCall host])
    | SpawnOutcome.spawnError exn =>
        (Except.error exn, [pingCall host])

/-- Concrete operating system used by witnesses: every spawn completes with a
fixed stdout, a distinct nonempty stderr, and exit status 0. -/
def sysOk : SpawnCall → SpawnOutcome :=
  fun _ => SpawnOutcome.completed "PING 1 packets transmitted" "ERR" 0

/-- Concrete operating system where the probe runs but the host is
unreachable: nonzero exit status with diagnostic output. -/
def sysFail : SpawnCall → SpawnOutcome :=
  fun _ => SpawnOutcome.completed "ping: unknown host" "" 2

/-- Concrete operating system where the probe binary is missing, so the spawn
itself raises. -/
def sysNoBinary : SpawnCall → SpawnOutcome :=
  fun _ => SpawnOutcome.spawnError "FileNotFoundError: ping"

/-- Concrete form data carrying exactly the field `host`. -/
def formWith (host : String) : String → Option String :=
  fun key => if key = "host" then some host else none

/-- Hostname of 253 allowed characters (the DNS name-length limit). -/
def host253 : String := String.mk (List.replicate 253 'a')

/-- Hostname of 254 allowed characters, one past the DNS name-length limit. -/
def host254 : String := String.mk (List.replicate 254 'a')

/-- Characterisation of the greedy run: it consumes everything exactly when
every character is allowed. -/
theorem dropAllowed_eq_nil_iff (cs : List Char) :
    dropAllowed cs = [] ↔ cs.all allowedChar := by
  induction cs with
  | nil => simp [dropAllowed]
  | cons c cs ih =>
      by_cases h : allowedChar c
      · simp [dropAllowed, h, ih]
      · simp [dropAllowed, h]

/-- Characterisation of the greedy run leaving exactly one newline: the input
is a run of allowed characters followed by a final `'\n'`. -/
theorem dropAllowed_eq_newline_iff (cs : List Char) :
    dropAllowed cs = ['\n'] ↔
      ∃ t, cs = t ++ ['\n'] ∧ t.all allowedChar := by
  induction cs with
  | nil =>
      constructor
      · intro h; simp [dropAllowed] at h
      · rintro ⟨t, ht, -⟩; cases t <;> simp at ht
  | cons c cs ih =>
      by_cases h : allowedChar c
      · rw [show dropAllowed (c :: cs) = dropAllowed cs from by
          simp [dropAllowed, h], ih]
        constructor
        · rintro ⟨t, rfl, ht⟩
          exact ⟨c :: t, rfl, by simp [h, ht]⟩
        · rintro ⟨t, heq, ht⟩
          cases t with
          | nil =>
              simp only [List.nil_append, List.cons.injEq] at heq
              rw [heq.1] at h
              simp [allowedChar] at h
          | cons d t =>
              simp only [List.cons_append, List.cons.injEq] at heq
              simp only [List.all_cons, Bool.and_eq_true] at ht
              exact ⟨t, heq.2, ht.2⟩
      · rw [show dropAllowed (c :: cs) = c :: cs from by simp [dropAllowed, h]]
        constructor
        · intro heq
          simp only [List.cons.injEq] at heq
          exact ⟨[], by simp [heq.1, heq.2], by simp⟩
        · rintro ⟨t, heq, ht⟩
          cases t with
          | nil => simpa using heq
          | cons d t =>
              simp only [List.cons_append, List.cons.injEq] at heq
              simp only [List.all_cons, Bool.and_eq_true] at ht
              rw [← heq.1] at ht
              exact absurd ht.1 (by simp [h])

/-- Semantic characterisation of the embedded `re.match`: the pattern accepts
exactly the nonempty all-allowed strings, plus those same strings with one
extra trailing newline (the Python `$` quirk). -/
theorem reMatchList_iff (cs : List Char) :
    reMatchList cs = true ↔
      (cs ≠ [] ∧ cs.all allowedChar) ∨
      (∃ t, cs = t ++ ['\n'] ∧ t ≠ [] ∧ t.all allowedChar) := by
  cases cs with
  | nil =>
      simp only [reMatchList]
      constructor
      · intro h; exact absurd h (by simp)
      · rintro (⟨hne, -⟩ | ⟨t, ht, -, -⟩)
        · exact absurd rfl hne
        · cases t <;> simp at ht
  | cons c rest =>
      simp only [reMatchList, Bool.and_eq_true, Bool.or_eq_true,
        decide_eq_true_eq, dropAllowed_eq_nil_iff, dropAllowed_eq_newline_iff]
      constructor
      · rintro ⟨hc, hrest | ⟨t, rfl, ht⟩⟩
        · exact Or.inl ⟨by simp, by simp [hc, hrest]⟩
        · exact Or.inr ⟨c :: t, rfl, by simp, by simp [hc, ht]⟩
      · rintro (⟨-, hall⟩ | ⟨t, heq, htne, htall⟩)
        · simp only [List.all_cons, Bool.and_eq_true] at hall
          exact ⟨hall.1, Or.inl hall.2⟩
        · cases t with
          | nil => exact absurd rfl htne
          | cons d t =>
              simp only [List.cons_append, List.cons.injEq] at heq
              simp only [List.all_cons, Bool.and_eq_true] at htall
              rw [heq.1]
              exact ⟨htall.1, Or.inr ⟨t, heq.2, htall.2⟩⟩

/-- C1, counterexample: the string `"a\n"` contains a newline, a character
outside the class `[a-zA-Z0-9.-]`, so the claim requires status 400 and no
process; but the handler spawns the probe with `"a\n"` and answers 200,
because Python's `$` also matches just before one trailing newline. -/
theorem C1_counterexample :
    ('\n' ∈ "a\n".data ∧ allowedChar '\n' = false) ∧
    ping sysOk (formWith "a\n") =
      (Except.ok { status := 200, body := "PING 1 packets transmitted" },
        [pingCall "a\n"]) :=
  ⟨by decide, rfl⟩

/-- C1, amended: the set of accepted hosts is exactly the nonempty strings of
allowed characters plus those same strings with one extra trailing newline;
every accepted host gets exactly one probe spawn, and every other string gets
status 400, body `"Invalid host"`, and no spawn. -/
theorem C1_accept_or_reject (sys : SpawnCall → SpawnOutcome)
    (form : String → Option String) (host : String)
    (hhost : formGet form "host" "" = host) :
    (reMatchHost host = true ↔
        (host.data ≠ [] ∧ host.data.all allowedChar) ∨
        (∃ t, host.data = t ++ ['\n'] ∧ t ≠ [] ∧ t.all allowedChar)) ∧
    (reMatchHost host = true → (ping sys form).2 = [pingCall host]) ∧
    (reMatchHost host = false →
        ping sys form =
          (Except.ok { status := 400, body := "Invalid host" }, [])) := by
  subst hhost
  refine ⟨reMatchList_iff _, fun hm => ?_, fun hm => ?_⟩
  · cases hsys : sys (pingCall (formGet form "host" "")) <;>
      simp [ping, reMatchHost] at hm ⊢ <;> simp [hm, hsys]
  · simp [ping, reMatchHost] at hm ⊢
    simp [hm]

/-- Witness for C1's amended theorem at the concrete input `"bad host"`
(space is not in the class, and there is no trailing-newline escape). -/
theorem C1_accept_or_reject_witness :
    ping sysOk (formWith "bad host") =
      (Except.ok { status := 400, body := "Invalid host" }, []) :=
  (C1_accept_or_reject sysOk (formWith "bad host") "bad host" rfl).2.2
    (by decide)

/-- C2: whenever validation passes, the handler makes exactly one spawn call,
whose argument vector is `["ping", "-c", "1", host]` — four separate
elements, the hostname the last of them — with no shell interpretation
(`useShell = false`): the hostname is never concatenated into a shell
command string. -/
theorem C2_argv_vector_no_shell (sys : SpawnCall → SpawnOutcome)
    (form : String → Option String) (host : String)
    (hhost : formGet form "host" "" = host)
    (hm : reMatchHost host = true) :
    (ping sys form).2 = [pingCall host] ∧
    ∀ call ∈ (ping sys form).2,
      call.argv = ["ping", "-c", "1", host] ∧ call.useShell = false := by
  subst hhost
  have hspawn : (ping sys form).2 = [pingCall (formGet form "host" "")] := by
    cases hsys : sys (pingCall (formGet form "host" "")) <;>
      simp [ping, reMatchHost] at hm ⊢ <;> simp [hm, hsys]
  refine ⟨hspawn, ?_⟩
  intro call hcall
  rw [hspawn] at hcall
  simp only [List.mem_singleton] at hcall
  subst hcall
  exact ⟨rfl, rfl⟩

/-- Witness for C2 at the concrete input `"8.8.8.8"`. -/
theorem C2_argv_vector_no_shell_witness :
    (ping sysOk (formWith "8.8.8.8")).2 = [pingCall "8.8.8.8"] ∧
    ∀ call ∈ (ping sysOk (formWith "8.8.8.8")).2,
      call.argv = ["ping", "-c", "1", "8.8.8.8"] ∧ call.useShell = false :=
  C2_argv_vector_no_shell sysOk (formWith "8.8.8.8") "8.8.8.8" rfl (by decide)

/-- C3: a nonempty run of allowed characters followed by exactly one trailing
newline passes the validator, and the handler spawns the probe with the
newline-bearing string itself as the last argument-vector element, instead of
rejecting it with 400. -/
theorem C3_trailing_newline_accepted (sys : SpawnCall → SpawnOutcome)
    (form : String → Option String) (host : String) (t : List Char)
    (hhost : formGet form "host" "" = host)
    (hdata : host.data = t ++ ['\n'])
    (htne : t ≠ []) (htall : t.all allowedChar = true) :
    reMatchHost host = true ∧
    (ping sys form).2 = [pingCall host] ∧
    (pingCall host).argv.getLast? = some host := by
  have hm : reMatchHost host = true :=
    (reMatchList_iff host.data).mpr (Or.inr ⟨t, hdata, htne, htall⟩)
  subst hhost
  refine ⟨hm, ?_, by simp [pingCall]⟩
  cases hsys : sys (pingCall (formGet form "host" "")) <;>
    simp [ping, reMatchHost] at hm ⊢ <;> simp [hm, hsys]

/-- Witness for C3 at the concrete input `"example.com\n"`. -/
theorem C3_trailing_newline_accepted_witness :
    reMatchHost "example.com\n" = true ∧
    (ping sysOk (formWith "example.com\n")).2 = [pingCall "example.com\n"] ∧
    (pingCall "example.com\n").argv.getLast? = some "example.com\n" :=
  C3_trailing_newline_accepted sysOk (formWith "example.com\n")
    "example.com\n" "example.com".data rfl (by decide) (by decide) (by decide)

/-- C4: when the form carries no `host` field (so `request.form.get` yields
the empty-string default) or carries `host` equal to the empty string, the
handler responds 400 with body `"Invalid host"` and spawns no process. -/
theorem C4_missing_or_empty_host (sys : SpawnCall → SpawnOutcome)
    (form : String → Option String)
    (h : form "host" = none ∨ form "host" = some "") :
    ping sys form =
      (Except.ok { status := 400, body := "Invalid host" }, []) := by
  have hhost : formGet form "host" "" = "" := by
    cases h with
    | inl h => simp [formGet, h]
    | inr h => simp [formGet, h]
  have hm : reMatchHost "" = false := by decide
  simp [ping, hhost, hm]

/-- Witness for C4 with a form that has no fields at all. -/
theorem C4_missing_or_empty_host_witness :
    ping sysOk (fun _ => none) =
      (Except.ok { status := 400, body := "Invalid host" }, []) :=
  C4_missing_or_empty_host sysOk (fun _ => none) (Or.inl rfl)

/-- C5: when validation passes and the child completes, the response is
status 200 and its body is exactly the captured standard output — for every
value of the separately captured standard error, which never reaches the
body. -/
theorem C5_stdout_verbatim (sys : SpawnCall → SpawnOutcome)
    (form : String → Option String) (host out err : String) (code : Int)
    (hhost : formGet form "host" "" = host)
    (hm : reMatchHost host = true)
    (hsys : sys (pingCall host) = SpawnOutcome.completed out err code) :
    ping sys form =
      (Except.ok { status := 200, body := out }, [pingCall host]) := by
  subst hhost
  simp [ping, reMatchHost] at hm ⊢
  simp [hm, hsys]

/-- Witness for C5: stderr is `"ERR"` yet the body is the stdout alone. -/
theorem C5_stdout_verbatim_witness :
    ping sysOk (formWith "127.0.0.1") =
      (Except.ok { status := 200, body := "PING 1 packets transmitted" },
        [pingCall "127.0.0.1"]) :=
  C5_stdout_verbatim sysOk (formWith "127.0.0.1") "127.0.0.1"
    "PING 1 packets transmitted" "ERR" 0 rfl (by decide) rfl

/-- C6: when the child runs but exits nonzero, the handler still returns an
ordinary response — status 200 with the captured output — and no exception
escapes (`subprocess.run` without `check=True` does not raise on a nonzero
exit status). -/
theorem C6_nonzero_exit_still_200 (sys : SpawnCall → SpawnOutcome)
    (form : String → Option String) (host out err : String) (code : Int)
    (hhost : formGet form "host" "" = host)
    (hm : reMatchHost host = true)
    (hsys : sys (pingCall host) = SpawnOutcome.completed out err code)
    (_hcode : code ≠ 0) :
    ping sys form =
      (Except.ok { status := 200, body := out }, [pingCall host]) := by
  subst hhost
  simp [ping, reMatchHost] at hm ⊢
  simp [hm, hsys]

/-- Witness for C6 at `"999.999.999.999"` with exit status 2. -/
theorem C6_nonzero_exit_still_200_witness :
    ping sysFail (formWith "999.999.999.999") =
      (Except.ok { status := 200, body := "ping: unknown host" },
        [pingCall "999.999.999.999"]) :=
  C6_nonzero_exit_still_200 sysFail (formWith "999.999.999.999")
    "999.999.999.999" "ping: unknown host" "" 2 rfl (by decide) rfl
    (by decide)

/-- C7, counterexample: when the spawn itself fails (missing binary), the
handler has no `try`/`except`, so the exception escapes the handler uncaught
— the handler does not produce any 500-level response of its own. -/
theorem C7_counterexample :
    ping sysNoBinary (formWith "example.com") =
      (Except.error "FileNotFoundError: ping", [pingCall "example.com"]) :=
  rfl

/-- C7, amended: if the probe binary cannot be spawned, the exception raised
by `subprocess.run` propagates out of the handler uncaught (any 500 the
client sees comes from the framework's default error handling, not from the
handler). -/
theorem C7_spawn_failure_uncaught (sys : SpawnCall → SpawnOutcome)
    (form : String → Option String) (host exn : String)
    (hhost : formGet form "host" "" = host)
    (hm : reMatchHost host = true)
    (hsys : sys (pingCall host) = SpawnOutcome.spawnError exn) :
    ping sys form = (Except.error exn, [pingCall host]) := by
  subst hhost
  simp [ping, reMatchHost] at hm ⊢
  simp [hm, hsys]

/-- Witness for C7's amended theorem at the concrete input `"example.com"`. -/
theorem C7_spawn_failure_uncaught_witness :
    ping sysNoBinary (formWith "example.com") =
      (Except.error "FileNotFoundError: ping", [pingCall "example.com"]) :=
  C7_spawn_failure_uncaught sysNoBinary (formWith "example.com")
    "example.com" "FileNotFoundError: ping" rfl (by decide) rfl

set_option maxRecDepth 4000 in
/-- C8, counterexample: a 254-character hostname — longer than the 253 the
claim allows — is neither rejected nor truncated: it passes validation and is
handed to the probe unchanged as the last argument-vector element. -/
theorem C8_counterexample :
    host254.length = 254 ∧ reMatchHost host254 = true ∧
    (ping sysOk (formWith host254)).2 = [pingCall host254] ∧
    (pingCall host254).argv.getLast? = some host254 := by
  refine ⟨by decide, by decide, rfl, by decide⟩

/-- C8, amended: a 253-character hostname of allowed characters is accepted
and probed, but there is no length policy at all: a nonempty hostname of
allowed characters of any length is accepted and passed through unchanged. -/
theorem C8_no_length_limit (sys : SpawnCall → SpawnOutcome)
    (form : String → Option String) (host : String)
    (hhost : formGet form "host" "" = host)
    (hne : host.data ≠ []) (hall : host.data.all allowedChar = true) :
    reMatchHost host = true ∧ (ping sys form).2 = [pingCall host] := by
  have hm : reMatchHost host = true :=
    (reMatchList_iff host.data).mpr (Or.inl ⟨hne, hall⟩)
  subst hhost
  refine ⟨hm, ?_⟩
  cases hsys : sys (pingCall (formGet form "host" "")) <;>
    simp [ping, reMatchHost] at hm ⊢ <;> simp [hm, hsys]

set_option maxRecDepth 4000 in
/-- Witness for C8's amended theorem at the 253-character hostname. -/
theorem C8_no_length_limit_witness :
    reMatchHost host253 = true ∧
    (ping sysOk (formWith host253)).2 = [pingCall host253] :=
  C8_no_length_limit sysOk (formWith host253) host253 rfl (by decide)
    (by decide)

/-- C9: the handler is deterministic in its inputs — it reads only the `host`
form field and the outcome of the single probe call it can make, so two
requests agreeing on those produce identical responses and identical spawn
behaviour. -/
theorem C9_deterministic (sys1 sys2 : SpawnCall → SpawnOutcome)
    (form1 form2 : String → Option String)
    (hform : formGet form1 "host" "" = formGet form2 "host" "")
    (hsys : sys1 (pingCall (formGet form1 "host" "")) =
            sys2 (pingCall (formGet form1 "host" ""))) :
    ping sys1 form1 = ping sys2 form2 := by
  simp only [ping]
  rw [← hform, hsys]

/-- Witness for C9: two different form maps agreeing on `host`, probed under
the same operating system, give equal results. -/
theorem C9_deterministic_witness :
    ping sysOk (formWith "example.com") =
      ping sysOk
        (fun key => if key = "host" then some "example.com"
          else some "unrelated") :=
  C9_deterministic sysOk sysOk (formWith "example.com")
    (fun key => if key = "host" then some "example.com" else some "unrelated")
    rfl rfl

/-- C10: a nonempty string of allowed characters beginning with a hyphen,
such as `"-v"`, passes validation and is handed unmodified to the probe as
the final argument-vector element, where the child program may parse it as a
command-line option rather than a hostname. -/
theorem C10_leading_hyphen_accepted (sys : SpawnCall → SpawnOutcome)
    (form : String → Option String) (host : String)
    (hhost : formGet form "host" "" = host)
    (hhead : host.data.head? = some '-')
    (hne : host.data ≠ []) (hall : host.data.all allowedChar = true) :
    reMatchHost host = true ∧
    (ping sys form).2 = [pingCall host] ∧
    (pingCall host).argv = ["ping", "-c", "1", host] := by
  have hm : reMatchHost host = true :=
    (reMatchList_iff host.data).mpr (Or.inl ⟨hne, hall⟩)
  subst hhost
  refine ⟨hm, ?_, rfl⟩
  cases hsys : sys (pingCall (formGet form "host" "")) <;>
    simp [ping, reMatchHost] at hm ⊢ <;> simp [hm, hsys]

/-- Witness for C10 at the concrete input `"-v"`. -/
theorem C10_leading_hyphen_accepted_witness :
    reMatchHost "-v" = true ∧
    (ping sysOk (formWith "-v")).2 = [pingCall "-v"] ∧
    (pingCall "-v").argv = ["ping", "-c", "1", "-v"] :=
  C10_leading_hyphen_accepted sysOk (formWith "-v") "-v" rfl (by decide)
    (by decide) (by decide)

end PingApp
